import Mathlib

/-!
Verification of the consul service-discovery watcher
(`tpc/inf/go-upstream/registry/consul/service.go`).

The Go code is shallowly embedded: slices become `List`s, the in-place
`sort.Sort(endpointSlice(...))` mutation is made explicit by functions that
return the mutated lists alongside their boolean result, the long-poll fetch
and the catalog lookup become explicit per-cycle inputs (`Option` models a
transport failure), and each loop iteration of `watchService` /
`watchServices` becomes a step function on an explicit state record.
-/

/-! ### Lexicographic string order (Go `<` on strings, kernel-computable) -/

/-- Lexicographic strict order on character lists, mirroring Go's `<` on
strings (byte-wise lexicographic comparison). -/
def lexLT : List Char → List Char → Bool
  | [], [] => false
  | [], _ :: _ => true
  | _ :: _, [] => false
  | a :: as, b :: bs => if a < b then true else if b < a then false else lexLT as bs

/-- Strict lexicographic order on strings. -/
def strLT (a b : String) : Bool := lexLT a.data b.data

/-- Reflexive lexicographic order on strings. -/
def strLE (a b : String) : Bool := ! strLT b a

/-! ### Data model

`registry.Endpoint` and `registry.Cluster` (package `registry` of
`go-upstream`); the fields are the ones the watcher reads and writes. -/

/-- `registry.Endpoint`: one reachable service instance. -/
structure Endpoint where
  ID : String
  Addr : String
  Port : Int
  Tags : List String
deriving DecidableEq, Repr

/-- Modelled from the spec: the fixed injected environment tag that
`registry.Cluster.AddEnvTag` appends (the `registry` package is not under
`src/`; the spec only says the tag is fixed, so a concrete placeholder value
is used). -/
def envTag : String := "env=global"

/-- `registry.Cluster`: all healthy instances of one logical service.
The `Tags` field models the cluster-level tag list that the environment
enrichment appends to (modelled from the spec: "unconditionally append a
fixed environment tag to the cluster"). -/
structure Cluster where
  Name : String
  Endpoints : List Endpoint
  Tags : List String
deriving DecidableEq, Repr

/-- Modelled from the spec: `registry.Cluster.AddEnvTag` appends the fixed
injected environment tag to the cluster. -/
def Cluster.AddEnvTag (c : Cluster) : Cluster := { c with Tags := c.Tags ++ [envTag] }

/-- `api.HealthCheck` (hashicorp/consul), restricted to the fields the
watcher compares. -/
structure HealthCheck where
  Node : String
  CheckID : String
  Name : String
  Status : String
  ServiceID : String
  ServiceName : String
  ServiceTags : List String
deriving DecidableEq, Repr

/-- `api.CatalogService` (hashicorp/consul), restricted to the fields
`serviceConfig` reads. -/
structure CatalogService where
  ServiceID : String
  ServiceAddress : String
  Address : String
  ServicePort : Int
  ServiceTags : List String
  Datacenter : String
deriving DecidableEq, Repr

/-! ### `endpointSlice` sorting (`sort.Sort(endpointSlice(...))`) -/

/-- The `endpointSlice.Less` order: `s[i].ID < s[j].ID`, as a reflexive
relation for sorting. -/
def idLE (a b : Endpoint) : Prop := strLE a.ID b.ID = true

instance : DecidableRel idLE := fun a b => inferInstanceAs (Decidable (_ = true))

/-- `sort.Sort(endpointSlice(l))`: sort an endpoint list by `ID`. -/
def sortEndpoints (l : List Endpoint) : List Endpoint := List.insertionSort idLE l

/-- The reflexive string order used by `sort.Strings`. -/
def strLEP (a b : String) : Prop := strLE a b = true

instance : DecidableRel strLEP := fun a b => inferInstanceAs (Decidable (_ = true))

/-- `sort.Strings`: sort a string list lexicographically. -/
def sortStrings (l : List String) : List String := List.insertionSort strLEP l

/-! ### `checkClusterChanged`

The Go function sorts, in place, the endpoint lists of each positional pair
of clusters it compares, stopping at the first differing pair.
`checkPairsM` returns the boolean result together with the two (possibly
partially mutated) cluster lists; `checkClusterChanged` is the boolean
alone. -/

/-- One cluster with its endpoints sorted by ID (the in-place effect of
`sort.Sort(endpointSlice(c.Endpoints))`). -/
def sortClusterEndpoints (c : Cluster) : Cluster :=
  { c with Endpoints := sortEndpoints c.Endpoints }

/-- The pairwise loop of `checkClusterChanged`, with the mutation of both
argument lists made explicit: returns `(changed, new', last')`. -/
def checkPairsM : List Cluster → List Cluster → Bool × List Cluster × List Cluster
  | [], bs => (false, [], bs)
  | a :: as, [] => (false, a :: as, [])
  | a :: as, b :: bs =>
    let a' := sortClusterEndpoints a
    let b' := sortClusterEndpoints b
    if a'.Endpoints = b'.Endpoints then
      let r := checkPairsM as bs
      (r.1, a' :: r.2.1, b' :: r.2.2)
    else
      (true, a' :: as, b' :: bs)

/-- `checkClusterChanged` with the in-place mutation made explicit: if the
lengths differ it returns `true` without touching either list, otherwise it
compares positional pairs (sorting both endpoint lists of each compared
pair) until the first difference. -/
def checkClusterChangedM (nw last : List Cluster) : Bool × List Cluster × List Cluster :=
  if nw.length = last.length then checkPairsM nw last else (true, nw, last)

/-- The boolean result of `checkClusterChanged`. -/
def checkClusterChanged (nw last : List Cluster) : Bool :=
  (checkClusterChangedM nw last).1

/-! ### `checkCheckersEqual` -/

/-- The per-record match of `checkCheckersEqual`: equality of the six named
fields plus `reflect.DeepEqual` of the `ServiceTags` slices. -/
def hcMatch (j h : HealthCheck) : Bool :=
  j.Node == h.Node && j.CheckID == h.CheckID && j.Name == h.Name &&
    j.Status == h.Status && j.ServiceID == h.ServiceID &&
    j.ServiceName == h.ServiceName && j.ServiceTags == h.ServiceTags

/-- The inner `checkIn` closure: every element of `h1` has a match in `h2`. -/
def checkIn (h1 h2 : List HealthCheck) : Bool :=
  h1.all fun h => h2.any fun j => hcMatch j h

/-- `checkCheckersEqual`: bidirectional containment of health-check lists. -/
def checkCheckersEqual (old nw : List HealthCheck) : Bool :=
  checkIn old nw && checkIn nw old

/-! ### `serviceConfig` and `servicesConfig`

The catalog call `client.Catalog().Service(name, "", q)` with
`q.Datacenter = dc` is modelled as a function `catalog : name → dc →
Option (list of catalog entries)`, `none` being a transport error. -/

/-- The endpoint built for one catalog entry inside `serviceConfig`'s loop:
tags are the instance's own tags plus `"dc=" ++ svc.Datacenter`, sorted;
the address falls back to the node-level one when the service-level one is
empty. -/
def mkEndpoint (svc : CatalogService) : Endpoint :=
  { ID := svc.ServiceID
    Addr := if svc.ServiceAddress = "" then svc.Address else svc.ServiceAddress
    Port := svc.ServicePort
    Tags := sortStrings (svc.ServiceTags ++ ["dc=" ++ svc.Datacenter]) }

/-- `serviceConfig`: the config for all good instances of a single service.
Returns early (no catalog call, no env tag) when the name is empty or no
instance passed; returns the empty cluster (no env tag) when the catalog
lookup fails; otherwise keeps the catalog entries whose `ServiceID` passed
and appends the environment tag (`defer cluster.AddEnvTag()` is registered
only after the error check). -/
def serviceConfig (catalog : String → String → Option (List CatalogService))
    (name : String) (passing : List String) (dc : String) : Cluster :=
  let cluster : Cluster := { Name := name, Endpoints := [], Tags := [] }
  if name = "" ∨ passing = [] then cluster
  else
    match catalog name dc with
    | none => cluster
    | some svcs =>
      Cluster.AddEnvTag
        { cluster with
          Endpoints := (svcs.filter fun svc => passing.contains svc.ServiceID).map mkEndpoint }

/-- The service names of `servicesConfig`'s grouping map, in first-appearance
order (Go iterates the map in unspecified order; the embedding fixes
first-appearance order as the deterministic stand-in). -/
def groupNames (checks : List HealthCheck) : List String :=
  checks.foldl (fun acc c => if acc.contains c.ServiceName then acc else acc ++ [c.ServiceName]) []

/-- The passing `ServiceID`s recorded for one service name (the inner
`map[string]bool` is a membership set, so duplicates are irrelevant). -/
def passingIDs (checks : List HealthCheck) (name : String) : List String :=
  (checks.filter fun c => c.ServiceName = name).map HealthCheck.ServiceID

/-- `servicesConfig`: group the passing checks by service name and build one
cluster per group. -/
def servicesConfig (catalog : String → String → Option (List CatalogService))
    (checks : List HealthCheck) (dc : String) : List Cluster :=
  (groupNames checks).map fun name => serviceConfig catalog name (passingIDs checks name) dc

/-! ### `watchService` (per-domain watcher), one loop iteration -/

/-- Modelled from the spec: `passingServices` (defined elsewhere in the
repository, not under `src/`) filters the health checks to those whose
status is in the accepted set. -/
def passingServices (checks : List HealthCheck) (status : List String) : List HealthCheck :=
  checks.filter fun c => status.contains c.Status

/-- `api.ServiceEntry`, restricted to the `Checks` field that
`watchService` flattens. -/
structure ServiceEntry where
  Checks : List HealthCheck
deriving DecidableEq, Repr

/-- The loop-scoped state of `watchService`: `lastIndex`, `oldCheckers`,
`lastConfig`. -/
structure WatchState where
  lastIndex : Nat
  oldCheckers : List HealthCheck
  lastConfig : List Cluster
deriving DecidableEq, Repr

/-- One result of the long-poll fetch `client.Health().Service(...)`:
`none` is a transport error, `some (svcs, idx)` is the service entries
together with `meta.LastIndex`. -/
abbrev FetchRes : Type := Option (List ServiceEntry × Nat)

/-- One iteration of `watchService`'s loop: returns the new loop state and
the value sent on the output channel, if any. On fetch failure nothing
changes (the code sleeps and retries). On success the cursor is
unconditionally advanced; if the passing set is unchanged under
`checkCheckersEqual` the cycle stops there; otherwise the new config is
built, diffed (with in-place sorting) against `lastConfig`, sent if
changed, and persisted either way. -/
def watchCycle (status : List String) (dc : String)
    (catalog : String → String → Option (List CatalogService))
    (s : WatchState) (fetch : FetchRes) : WatchState × Option (List Cluster) :=
  match fetch with
  | none => (s, none)
  | some (svcs, idx) =>
    let checks := (svcs.map ServiceEntry.Checks).flatten
    let passCheckers := passingServices checks status
    if checkCheckersEqual s.oldCheckers passCheckers then
      ({ s with lastIndex := idx }, none)
    else
      let newConfig := servicesConfig catalog passCheckers dc
      let r := checkClusterChangedM newConfig s.lastConfig
      ({ lastIndex := idx, oldCheckers := passCheckers, lastConfig := r.2.1 },
        if r.1 then some r.2.1 else none)

/-- `watchService` run over a finite list of fetch results: final state and
the list of emissions in order. -/
def watchRun (status : List String) (dc : String)
    (catalog : String → String → Option (List CatalogService)) :
    WatchState → List FetchRes → WatchState × List (List Cluster)
  | s, [] => (s, [])
  | s, f :: fs =>
    let r := watchCycle status dc catalog s f
    let rest := watchRun status dc catalog r.1 fs
    (rest.1, match r.2 with
      | some c => c :: rest.2
      | none => rest.2)

/-- The cursor value after each loop iteration of a run. -/
def cursorTrace (status : List String) (dc : String)
    (catalog : String → String → Option (List CatalogService)) :
    WatchState → List FetchRes → List Nat
  | _, [] => []
  | s, f :: fs =>
    ((watchCycle status dc catalog s f).1).lastIndex ::
      cursorTrace status dc catalog ((watchCycle status dc catalog s f).1) fs

/-- The indices returned by the successful fetches of a trace, in order. -/
def successIdxs (trace : List FetchRes) : List Nat :=
  trace.filterMap fun f => Option.map Prod.snd f

/-! ### `watchServices` (cross-domain aggregator), one loop iteration -/

/-- The aggregator's loop state: one active flag per channel (`reflect.Select`
cases; closing sets the case's channel to `nil`), one last-received config
slot per domain, and the last merged result. -/
structure AggState where
  active : List Bool
  lastConfig : List (List Cluster)
  lastResult : List Cluster
deriving DecidableEq, Repr

/-- One outcome of the aggregator's `reflect.Select`: a value received from
domain channel `i`, or domain channel `i` found closed. -/
inductive AggEvent where
  | recv (i : Nat) (v : List Cluster)
  | closed (i : Nat)
deriving DecidableEq, Repr

/-- The endpoints one slot contributes to the merged cluster: the first
cluster's endpoints when the slot's list is non-empty and that cluster's
endpoint list is non-empty, nothing otherwise. -/
def slotEndpoints : List Cluster → List Endpoint
  | [] => []
  | c :: _ => if c.Endpoints.length ≠ 0 then c.Endpoints else []

/-- The merge loop of `watchServices`: start from `nil` endpoints and append
each contributing slot's endpoints in domain order. -/
def mergeEndpoints (slots : List (List Cluster)) : List Endpoint :=
  slots.foldl
    (fun acc slot =>
      match slot with
      | [] => acc
      | c :: _ => if c.Endpoints.length ≠ 0 then acc ++ c.Endpoints else acc)
    []

/-- The single merged cluster `watchServices` rebuilds after each receive. -/
def mergeResult (service : String) (slots : List (List Cluster)) : List Cluster :=
  [{ Name := service, Endpoints := mergeEndpoints slots, Tags := [] }]

/-- One iteration of `watchServices`'s select loop: a closed channel is
removed from the wait set and nothing else happens; a received value is
stored at its domain's slot, the merged view is rebuilt, diffed (with
in-place sorting) against the last result, sent if changed, and persisted
either way. -/
def aggStep (service : String) (s : AggState) (e : AggEvent) :
    AggState × Option (List Cluster) :=
  match e with
  | .closed i => ({ s with active := s.active.set i false }, none)
  | .recv i v =>
    let slots := s.lastConfig.set i v
    let result := mergeResult service slots
    let r := checkClusterChangedM result s.lastResult
    ({ s with lastConfig := slots, lastResult := r.2.1 },
      if r.1 then some r.2.1 else none)

/-- `watchServices`'s loop run over a finite list of select outcomes: final
state and the list of emissions in order. -/
def aggRun (service : String) : AggState → List AggEvent → AggState × List (List Cluster)
  | s, [] => (s, [])
  | s, e :: es =>
    let r := aggStep service s e
    let rest := aggRun service r.1 es
    (rest.1, match r.2 with
      | some c => c :: rest.2
      | none => rest.2)

/-! ### Order lemmas for the lexicographic comparison -/

theorem lexLT_irrefl : ∀ l, lexLT l l = false := by
  intro l
  induction l with
  | nil => rfl
  | cons a as ih => simp [lexLT, ih]

theorem lexLT_asymm : ∀ a b, lexLT a b = true → lexLT b a = false := by
  intro a
  induction a with
  | nil => intro b h; cases b <;> simp [lexLT]
  | cons x xs ih =>
    intro b h
    cases b with
    | nil => simp [lexLT] at h
    | cons y ys =>
      simp only [lexLT] at h ⊢
      rcases lt_trichotomy x y with hlt | heq | hgt
      · simp [hlt, not_lt_of_lt hlt]
      · subst heq
        simp only [lt_irrefl, if_false] at h ⊢
        exact ih ys h
      · simp [hgt, not_lt_of_lt hgt] at h

theorem lexLT_connex : ∀ a b, lexLT a b = false → lexLT b a = false → a = b := by
  intro a
  induction a with
  | nil =>
    intro b h1 _
    cases b with
    | nil => rfl
    | cons y ys => simp [lexLT] at h1
  | cons x xs ih =>
    intro b h1 h2
    cases b with
    | nil => simp [lexLT] at h2
    | cons y ys =>
      simp only [lexLT] at h1 h2
      rcases lt_trichotomy x y with hlt | heq | hgt
      · simp [hlt] at h1
      · subst heq
        simp only [lt_irrefl, if_false] at h1 h2
        rw [ih ys h1 h2]
      · simp [hgt] at h2

theorem lexLT_trans : ∀ a b c, lexLT a b = true → lexLT b c = true → lexLT a c = true := by
  intro a
  induction a with
  | nil =>
    intro b c h1 h2
    cases b with
    | nil => simp [lexLT] at h1
    | cons y ys =>
      cases c with
      | nil => simp [lexLT] at h2
      | cons z zs => simp [lexLT]
  | cons x xs ih =>
    intro b c h1 h2
    cases b with
    | nil => simp [lexLT] at h1
    | cons y ys =>
      cases c with
      | nil => simp [lexLT] at h2
      | cons z zs =>
        simp only [lexLT] at h1 h2 ⊢
        rcases lt_trichotomy x y with hxy | hxy | hxy
        · rcases lt_trichotomy y z with hyz | hyz | hyz
          · simp [lt_trans hxy hyz]
          · subst hyz; simp [hxy]
          · simp [hyz, not_lt_of_lt hyz] at h2
        · subst hxy
          rcases lt_trichotomy x z with hyz | hyz | hyz
          · simp [hyz]
          · subst hyz
            simp only [lt_irrefl, if_false] at h1 h2 ⊢
            exact ih ys zs h1 h2
          · simp [hyz, not_lt_of_lt hyz] at h2
        · simp [hxy, not_lt_of_lt hxy] at h1

theorem str_data_ext {a b : String} (h : a.data = b.data) : a = b := by
  cases a
  cases b
  exact congrArg String.mk (by simpa using h)

theorem lexLT_not_trans {a b c : List Char} (h1 : lexLT b a = false) (h2 : lexLT c b = false) :
    lexLT c a = false := by
  by_contra hca
  have hca' : lexLT c a = true := by
    cases h : lexLT c a
    · exact absurd h hca
    · rfl
  cases hab : lexLT a b with
  | true =>
    have := lexLT_trans c a b hca' hab
    rw [this] at h2
    exact Bool.noConfusion h2
  | false =>
    have heq : a = b := lexLT_connex a b hab h1
    subst heq
    rw [hca'] at h2
    exact Bool.noConfusion h2

theorem strLE_total (a b : String) : strLE a b = true ∨ strLE b a = true := by
  cases h : lexLT b.data a.data with
  | false => left; simp [strLE, strLT, h]
  | true => right; simp [strLE, strLT, lexLT_asymm _ _ h]

instance : IsTotal Endpoint idLE := ⟨fun a b => strLE_total a.ID b.ID⟩

instance : IsTrans Endpoint idLE := by
  constructor
  intro a b c h1 h2
  simp only [idLE, strLE, strLT, Bool.not_eq_true'] at h1 h2 ⊢
  exact lexLT_not_trans h1 h2

instance : IsTotal String strLEP := ⟨fun a b => strLE_total a b⟩

instance : IsTrans String strLEP := by
  constructor
  intro a b c h1 h2
  simp only [strLEP, strLE, strLT, Bool.not_eq_true'] at h1 h2 ⊢
  exact lexLT_not_trans h1 h2

/-- The strict `endpointSlice.Less` order. -/
def idLT (a b : Endpoint) : Prop := strLT a.ID b.ID = true

theorem idLT_of_idLE_of_ne {a b : Endpoint} (hle : idLE a b) (hne : a.ID ≠ b.ID) : idLT a b := by
  simp only [idLE, strLE, strLT, Bool.not_eq_true'] at hle
  simp only [idLT, strLT]
  cases h : lexLT a.ID.data b.ID.data with
  | true => rfl
  | false =>
    exact absurd (str_data_ext (lexLT_connex _ _ h hle)) hne

theorem pairwise_and {α : Type} {R S : α → α → Prop} :
    ∀ {l : List α}, l.Pairwise R → l.Pairwise S → l.Pairwise fun a b => R a b ∧ S a b := by
  intro l
  induction l with
  | nil => intro _ _; exact List.Pairwise.nil
  | cons a as ih =>
    intro h1 h2
    rw [List.pairwise_cons] at h1 h2 ⊢
    exact ⟨fun b hb => ⟨h1.1 b hb, h2.1 b hb⟩, ih h1.2 h2.2⟩

theorem sortEndpoints_perm (l : List Endpoint) : (sortEndpoints l).Perm l :=
  List.perm_insertionSort idLE l

theorem sortEndpoints_sorted (l : List Endpoint) : List.Sorted idLE (sortEndpoints l) :=
  List.sorted_insertionSort idLE l

theorem sortEndpoints_eq_of_perm {l1 l2 : List Endpoint} (hp : l1.Perm l2)
    (hn : (l1.map Endpoint.ID).Nodup) : sortEndpoints l1 = sortEndpoints l2 := by
  have p1 := sortEndpoints_perm l1
  have p2 := sortEndpoints_perm l2
  have hps : (sortEndpoints l1).Perm (sortEndpoints l2) := p1.trans (hp.trans p2.symm)
  have hn1 : ((sortEndpoints l1).map Endpoint.ID).Nodup := ((p1.map Endpoint.ID).nodup_iff).mpr hn
  have hn2 : ((sortEndpoints l2).map Endpoint.ID).Nodup :=
    ((hps.map Endpoint.ID).nodup_iff).mp hn1
  have hne1 : (sortEndpoints l1).Pairwise fun a b => a.ID ≠ b.ID := List.pairwise_map.mp hn1
  have hne2 : (sortEndpoints l2).Pairwise fun a b => a.ID ≠ b.ID := List.pairwise_map.mp hn2
  have hlt1 : (sortEndpoints l1).Pairwise idLT :=
    (pairwise_and (sortEndpoints_sorted l1) hne1).imp fun h => idLT_of_idLE_of_ne h.1 h.2
  have hlt2 : (sortEndpoints l2).Pairwise idLT :=
    (pairwise_and (sortEndpoints_sorted l2) hne2).imp fun h => idLT_of_idLE_of_ne h.1 h.2
  haveI : IsAntisymm Endpoint idLT := by
    constructor
    intro a b h1 h2
    simp only [idLT, strLT] at h1 h2
    rw [lexLT_asymm _ _ h1] at h2
    exact Bool.noConfusion h2
  exact List.eq_of_perm_of_sorted hps hlt1 hlt2

/-! ### Characterization lemmas for the cluster diff -/

theorem checkPairsM_fst : ∀ (as bs : List Cluster),
    (checkPairsM as bs).1 = false ↔
      ∀ p ∈ as.zip bs, sortEndpoints p.1.Endpoints = sortEndpoints p.2.Endpoints := by
  intro as
  induction as with
  | nil => intro bs; simp [checkPairsM]
  | cons a as ih =>
    intro bs
    cases bs with
    | nil => simp [checkPairsM]
    | cons b bs =>
      simp only [checkPairsM, sortClusterEndpoints]
      by_cases h : sortEndpoints a.Endpoints = sortEndpoints b.Endpoints
      · simp [h, ih bs]
      · simp [h]

theorem checkClusterChanged_eq_false_iff (nw last : List Cluster) :
    checkClusterChanged nw last = false ↔
      nw.length = last.length ∧
        ∀ p ∈ nw.zip last, sortEndpoints p.1.Endpoints = sortEndpoints p.2.Endpoints := by
  unfold checkClusterChanged checkClusterChangedM
  by_cases hl : nw.length = last.length
  · simp [hl, checkPairsM_fst]
  · simp [hl]

theorem checkClusterChangedM_of_length_ne (nw last : List Cluster)
    (hl : nw.length ≠ last.length) : checkClusterChangedM nw last = (true, nw, last) := by
  simp [checkClusterChangedM, hl]

theorem checkPairsM_sorted : ∀ (as bs : List Cluster), as.length = bs.length →
    (checkPairsM as bs).1 = false →
      (∀ c ∈ (checkPairsM as bs).2.1, List.Sorted idLE c.Endpoints) ∧
      (∀ c ∈ (checkPairsM as bs).2.2, List.Sorted idLE c.Endpoints) := by
  intro as
  induction as with
  | nil =>
    intro bs hl _
    cases bs with
    | nil => simp [checkPairsM]
    | cons b bs => simp at hl
  | cons a as ih =>
    intro bs hl hf
    cases bs with
    | nil => simp at hl
    | cons b bs =>
      simp only [checkPairsM, sortClusterEndpoints] at hf ⊢
      by_cases h : sortEndpoints a.Endpoints = sortEndpoints b.Endpoints
      · simp only [h, if_true, if_pos rfl] at hf ⊢
        have hl' : as.length = bs.length := by simpa using hl
        have := ih bs hl' (by simpa using hf)
        constructor
        · intro c hc
          rcases List.mem_cons.mp hc with rfl | hc
          · exact sortEndpoints_sorted b.Endpoints
          · exact this.1 c hc
        · intro c hc
          rcases List.mem_cons.mp hc with rfl | hc
          · exact sortEndpoints_sorted b.Endpoints
          · exact this.2 c hc
      · simp [h] at hf

/-! ### Merge loop lemma -/

theorem mergeEndpoints_foldl : ∀ (l : List (List Cluster)) (acc : List Endpoint),
    l.foldl
        (fun acc slot =>
          match slot with
          | [] => acc
          | c :: _ => if c.Endpoints.length ≠ 0 then acc ++ c.Endpoints else acc)
        acc = acc ++ (l.map slotEndpoints).flatten := by
  intro l
  induction l with
  | nil => intro acc; simp
  | cons s l ih =>
    intro acc
    have hstep :
        (List.foldl
            (fun acc slot =>
              match slot with
              | [] => acc
              | c :: _ => if c.Endpoints.length ≠ 0 then acc ++ c.Endpoints else acc)
            acc (s :: l)) =
          List.foldl
            (fun acc slot =>
              match slot with
              | [] => acc
              | c :: _ => if c.Endpoints.length ≠ 0 then acc ++ c.Endpoints else acc)
            (acc ++ slotEndpoints s) l := by
      cases s with
      | nil => simp [slotEndpoints]
      | cons c rest =>
        simp only [List.foldl_cons]
        congr 1
        by_cases h : c.Endpoints.length ≠ 0
        · simp [slotEndpoints, h]
        · simp [slotEndpoints, h]
    rw [hstep, ih]
    simp [List.append_assoc]

theorem mergeEndpoints_eq (slots : List (List Cluster)) :
    mergeEndpoints slots = (slots.map slotEndpoints).flatten := by
  unfold mergeEndpoints
  simpa using mergeEndpoints_foldl slots []

/-! ### Per-cycle helper lemmas -/

theorem watchCycle_fail (status : List String) (dc : String)
    (catalog : String → String → Option (List CatalogService)) (s : WatchState) :
    watchCycle status dc catalog s none = (s, none) := rfl

theorem watchCycle_success_lastIndex (status : List String) (dc : String)
    (catalog : String → String → Option (List CatalogService)) (s : WatchState)
    (svcs : List ServiceEntry) (idx : Nat) :
    (watchCycle status dc catalog s (some (svcs, idx))).1.lastIndex = idx := by
  by_cases h : checkCheckersEqual s.oldCheckers
      (passingServices ((svcs.map ServiceEntry.Checks).flatten) status) = true
  · simp [watchCycle, h]
  · simp [watchCycle, h]

theorem watchCycle_suppressed (status : List String) (dc : String)
    (catalog : String → String → Option (List CatalogService)) (s : WatchState)
    (svcs : List ServiceEntry) (idx : Nat)
    (heq : checkCheckersEqual s.oldCheckers
        (passingServices ((svcs.map ServiceEntry.Checks).flatten) status) = true) :
    watchCycle status dc catalog s (some (svcs, idx)) = ({ s with lastIndex := idx }, none) := by
  simp [watchCycle, heq]

theorem watchCycle_changed (status : List String) (dc : String)
    (catalog : String → String → Option (List CatalogService)) (s : WatchState)
    (svcs : List ServiceEntry) (idx : Nat)
    (hne : checkCheckersEqual s.oldCheckers
        (passingServices ((svcs.map ServiceEntry.Checks).flatten) status) = false) :
    watchCycle status dc catalog s (some (svcs, idx)) =
      ({ lastIndex := idx,
         oldCheckers := passingServices ((svcs.map ServiceEntry.Checks).flatten) status,
         lastConfig :=
           (checkClusterChangedM
             (servicesConfig catalog
               (passingServices ((svcs.map ServiceEntry.Checks).flatten) status) dc)
             s.lastConfig).2.1 },
        if (checkClusterChangedM
             (servicesConfig catalog
               (passingServices ((svcs.map ServiceEntry.Checks).flatten) status) dc)
             s.lastConfig).1 then
          some
            ((checkClusterChangedM
               (servicesConfig catalog
                 (passingServices ((svcs.map ServiceEntry.Checks).flatten) status) dc)
               s.lastConfig).2.1)
        else none) := by
  simp [watchCycle, hne]

theorem getElem?_set_false : ∀ (l : List Bool) (i j : Nat), l[j]? = some false →
    (l.set i false)[j]? = some false := by
  intro l
  induction l with
  | nil => intro i j h; simp at h
  | cons a as ih =>
    intro i j h
    cases i with
    | zero =>
      cases j with
      | zero => simp
      | succ j => simpa using h
    | succ i =>
      cases j with
      | zero => simpa using h
      | succ j =>
        simp only [List.set_cons_succ, List.getElem?_cons_succ] at h ⊢
        exact ih i j h

theorem checkCheckersEqual_iff (old nw : List HealthCheck) :
    checkCheckersEqual old nw = true ↔
      ((∀ h ∈ old, ∃ j ∈ nw, j.Node = h.Node ∧ j.CheckID = h.CheckID ∧ j.Name = h.Name ∧
          j.Status = h.Status ∧ j.ServiceID = h.ServiceID ∧ j.ServiceName = h.ServiceName ∧
          j.ServiceTags = h.ServiceTags) ∧
        ∀ h ∈ nw, ∃ j ∈ old, j.Node = h.Node ∧ j.CheckID = h.CheckID ∧ j.Name = h.Name ∧
          j.Status = h.Status ∧ j.ServiceID = h.ServiceID ∧ j.ServiceName = h.ServiceName ∧
          j.ServiceTags = h.ServiceTags) := by
  simp [checkCheckersEqual, checkIn, hcMatch, List.all_eq_true, List.any_eq_true,
    Bool.and_eq_true, beq_iff_eq, and_assoc]

theorem watchRun_no_emit_aux (status : List String) (dc : String)
    (catalog : String → String → Option (List CatalogService)) :
    ∀ (trace : List FetchRes) (s : WatchState), s.oldCheckers = [] →
      (∀ f ∈ trace, ∀ svcs idx, f = some (svcs, idx) →
        passingServices ((svcs.map ServiceEntry.Checks).flatten) status = []) →
      (watchRun status dc catalog s trace).2 = [] ∧
        (watchRun status dc catalog s trace).1.oldCheckers = [] := by
  intro trace
  induction trace with
  | nil => intro s h _; exact ⟨rfl, h⟩
  | cons f fs ih =>
    intro s hold hemp
    cases f with
    | none =>
      simp only [watchRun, watchCycle_fail]
      exact ih s hold fun g hg => hemp g (List.mem_cons_of_mem _ hg)
    | some p =>
      obtain ⟨svcs, idx⟩ := p
      have hp : passingServices ((svcs.map ServiceEntry.Checks).flatten) status = [] :=
        hemp _ (List.mem_cons_self _ _) svcs idx rfl
      have heq : checkCheckersEqual s.oldCheckers
          (passingServices ((svcs.map ServiceEntry.Checks).flatten) status) = true := by
        rw [hold, hp]
        rfl
      have hcy := watchCycle_suppressed status dc catalog s svcs idx heq
      simp only [watchRun, hcy]
      exact ih _ (by simpa using hold) fun g hg => hemp g (List.mem_cons_of_mem _ hg)

/-! ### Claim theorems -/

/-- C1: after the aggregator processes any received per-domain value, the single
merged cluster it builds has `Name` equal to the configured service and an
endpoint list equal to the concatenation, in fixed domain-list order, of the
endpoints of every domain slot whose last received cluster list is non-empty
with a non-empty endpoint list; empty slots contribute nothing. -/
theorem aggregator_merge_invariant (service : String) (s : AggState) (i : Nat)
    (v : List Cluster) :
    mergeResult service (s.lastConfig.set i v) =
        [{ Name := service,
           Endpoints := ((s.lastConfig.set i v).map slotEndpoints).flatten,
           Tags := [] }] ∧
      (∀ c rest, slotEndpoints (c :: rest) =
        if c.Endpoints.length ≠ 0 then c.Endpoints else []) ∧
      slotEndpoints [] = [] ∧
      (aggStep service s (.recv i v)).1.lastConfig = s.lastConfig.set i v ∧
      (aggStep service s (.recv i v)).1.lastResult =
        (checkClusterChangedM (mergeResult service (s.lastConfig.set i v)) s.lastResult).2.1 := by
  refine ⟨?_, fun c rest => rfl, rfl, rfl, rfl⟩
  simp [mergeResult, mergeEndpoints_eq]

/-- C3: if the new passing set equals the previous one under bidirectional
containment (exact equality of `Node`, `CheckID`, `Name`, `Status`,
`ServiceID`, `ServiceName` and order-sensitive `ServiceTags`), the cycle
performs no catalog lookup (the result does not depend on the catalog) and
emits nothing, only advancing the cursor. -/
theorem passing_set_suppression (status : List String) (dc : String)
    (cat : String → String → Option (List CatalogService)) (s : WatchState)
    (svcs : List ServiceEntry) (idx : Nat)
    (heq : checkCheckersEqual s.oldCheckers
        (passingServices ((svcs.map ServiceEntry.Checks).flatten) status) = true) :
    watchCycle status dc cat s (some (svcs, idx)) = ({ s with lastIndex := idx }, none) ∧
      (∀ cat2, watchCycle status dc cat2 s (some (svcs, idx)) =
        ({ s with lastIndex := idx }, none)) ∧
      ∀ old nw, checkCheckersEqual old nw = true ↔
        ((∀ h ∈ old, ∃ j ∈ nw, j.Node = h.Node ∧ j.CheckID = h.CheckID ∧ j.Name = h.Name ∧
            j.Status = h.Status ∧ j.ServiceID = h.ServiceID ∧ j.ServiceName = h.ServiceName ∧
            j.ServiceTags = h.ServiceTags) ∧
          ∀ h ∈ nw, ∃ j ∈ old, j.Node = h.Node ∧ j.CheckID = h.CheckID ∧ j.Name = h.Name ∧
            j.Status = h.Status ∧ j.ServiceID = h.ServiceID ∧ j.ServiceName = h.ServiceName ∧
            j.ServiceTags = h.ServiceTags) :=
  ⟨watchCycle_suppressed status dc cat s svcs idx heq,
    fun cat2 => watchCycle_suppressed status dc cat2 s svcs idx heq,
    checkCheckersEqual_iff⟩

theorem passing_set_suppression_witness :
    checkCheckersEqual ([] : List HealthCheck)
        (passingServices ((([] : List ServiceEntry).map ServiceEntry.Checks).flatten) []) = true ∧
      watchCycle [] "dc1" (fun _ _ => none) ⟨0, [], []⟩ (some ([], 5)) = (⟨5, [], []⟩, none) :=
  ⟨by decide,
    (passing_set_suppression [] "dc1" (fun _ _ => none) ⟨0, [], []⟩ [] 5 (by decide)).1⟩

/-- C4: a successful fetch unconditionally sets the cursor to the returned
index (even when nothing is emitted), a failed fetch changes nothing; hence
if the indices returned by the successive successful fetches are
non-decreasing from the initial cursor, the per-cycle cursor values are
non-decreasing. -/
theorem cursor_update_monotone (status : List String) (dc : String)
    (cat : String → String → Option (List CatalogService)) :
    (∀ s svcs idx, (watchCycle status dc cat s (some (svcs, idx))).1.lastIndex = idx) ∧
      (∀ s, watchCycle status dc cat s none = (s, none)) ∧
      (∀ s trace, List.Chain' (· ≤ ·) (s.lastIndex :: successIdxs trace) →
        List.Chain' (· ≤ ·) (s.lastIndex :: cursorTrace status dc cat s trace)) := by
  refine ⟨fun s svcs idx => watchCycle_success_lastIndex status dc cat s svcs idx,
    fun s => rfl, ?_⟩
  intro s trace
  induction trace generalizing s with
  | nil => intro _; simp [cursorTrace]
  | cons f fs ih =>
    intro hch
    cases f with
    | none =>
      have hcur : cursorTrace status dc cat s (none :: fs) =
          s.lastIndex :: cursorTrace status dc cat s fs := by
        simp [cursorTrace, watchCycle_fail]
      rw [hcur, List.chain'_cons]
      refine ⟨le_refl _, ih s ?_⟩
      simpa [successIdxs] using hch
    | some p =>
      obtain ⟨svcs, idx⟩ := p
      have hidx := watchCycle_success_lastIndex status dc cat s svcs idx
      have hch' : List.Chain' (· ≤ ·) (s.lastIndex :: idx :: successIdxs fs) := by
        simpa [successIdxs] using hch
      rw [List.chain'_cons] at hch'
      have hcur : cursorTrace status dc cat s (some (svcs, idx) :: fs) =
          idx :: cursorTrace status dc cat
            ((watchCycle status dc cat s (some (svcs, idx))).1) fs := by
        simp [cursorTrace, hidx]
      rw [hcur, List.chain'_cons]
      refine ⟨hch'.1, ?_⟩
      have hrec := ih ((watchCycle status dc cat s (some (svcs, idx))).1)
        (by rw [hidx]; exact hch'.2)
      rwa [hidx] at hrec

theorem cursor_update_monotone_witness :
    List.Chain' (· ≤ ·) ((⟨0, [], []⟩ : WatchState).lastIndex ::
        successIdxs [some ([], 1), none, some ([], 3)]) ∧
      List.Chain' (· ≤ ·) ((⟨0, [], []⟩ : WatchState).lastIndex ::
        cursorTrace [] "us" (fun _ _ => none) ⟨0, [], []⟩ [some ([], 1), none, some ([], 3)]) :=
  ⟨by
      show List.Chain' (· ≤ ·) [0, 1, 3]
      rw [List.chain'_cons, List.chain'_cons]
      exact ⟨by norm_num, by norm_num, List.chain'_singleton 3⟩,
    (cursor_update_monotone [] "us" (fun _ _ => none)).2.2 ⟨0, [], []⟩
      [some ([], 1), none, some ([], 3)]
      (by
        show List.Chain' (· ≤ ·) [0, 1, 3]
        rw [List.chain'_cons, List.chain'_cons]
        exact ⟨by norm_num, by norm_num, List.chain'_singleton 3⟩)⟩

/-- C10: a per-domain watcher started from the initial state never emits when
every successful fetch yields an empty passing set — the very first empty
passing set compares equal (bidirectional containment over two empty lists)
to the initial empty last-passing set. -/
theorem no_initial_emission_empty_service (status : List String) (dc : String)
    (cat : String → String → Option (List CatalogService)) (trace : List FetchRes)
    (hempty : ∀ f ∈ trace, ∀ svcs idx, f = some (svcs, idx) →
      passingServices ((svcs.map ServiceEntry.Checks).flatten) status = []) :
    (watchRun status dc cat ⟨0, [], []⟩ trace).2 = [] :=
  (watchRun_no_emit_aux status dc cat trace ⟨0, [], []⟩ rfl hempty).1

theorem no_initial_emission_empty_service_witness :
    (∀ f ∈ ([some ([⟨[⟨"n1", "chk", "serfHealth", "critical", "i1", "svc", []⟩]⟩], 7),
        none] : List FetchRes), ∀ svcs idx, f = some (svcs, idx) →
        passingServices ((svcs.map ServiceEntry.Checks).flatten) ["passing"] = []) ∧
      (watchRun ["passing"] "us" (fun _ _ => none) ⟨0, [], []⟩
        [some ([⟨[⟨"n1", "chk", "serfHealth", "critical", "i1", "svc", []⟩]⟩], 7),
          none]).2 = [] := by
  have hemp : ∀ f ∈ ([some ([⟨[⟨"n1", "chk", "serfHealth", "critical", "i1", "svc", []⟩]⟩], 7),
      none] : List FetchRes), ∀ svcs idx, f = some (svcs, idx) →
      passingServices ((svcs.map ServiceEntry.Checks).flatten) ["passing"] = [] := by
    intro f hf svcs idx heq
    rcases List.mem_cons.mp hf with rfl | hf2
    · injection heq with h
      injection h with h1 h2
      subst h1
      rfl
    · rcases List.mem_singleton.mp hf2 with rfl
      exact Option.noConfusion heq
  exact ⟨hemp, no_initial_emission_empty_service ["passing"] "us" (fun _ _ => none) _ hemp⟩

/-- C2 (amended): in every cycle the new cluster list is compared to the last
one positionally after sorting each compared pair's endpoints by ID, sent iff
unequal and persisted either way; re-feeding a list whose clusters'
endpoints are permuted is suppressed provided each cluster's endpoint IDs
are pairwise distinct (permuting two endpoints that share an ID but differ
elsewhere is reported as a change), and changing one endpoint's `ID`,
`Addr`, `Port` or `Tags` is always reported as a change. -/
theorem cluster_diff_suppression (status : List String) (dc : String)
    (cat : String → String → Option (List CatalogService)) :
    (∀ nw last, checkClusterChanged nw last = false ↔
        nw.length = last.length ∧
          ∀ p ∈ nw.zip last, sortEndpoints p.1.Endpoints = sortEndpoints p.2.Endpoints) ∧
      (∀ (s : WatchState) svcs idx,
        checkCheckersEqual s.oldCheckers
            (passingServices ((svcs.map ServiceEntry.Checks).flatten) status) = false →
        watchCycle status dc cat s (some (svcs, idx)) =
          ({ lastIndex := idx,
             oldCheckers := passingServices ((svcs.map ServiceEntry.Checks).flatten) status,
             lastConfig :=
               (checkClusterChangedM
                 (servicesConfig cat
                   (passingServices ((svcs.map ServiceEntry.Checks).flatten) status) dc)
                 s.lastConfig).2.1 },
            if (checkClusterChangedM
                 (servicesConfig cat
                   (passingServices ((svcs.map ServiceEntry.Checks).flatten) status) dc)
                 s.lastConfig).1 then
              some
                ((checkClusterChangedM
                   (servicesConfig cat
                     (passingServices ((svcs.map ServiceEntry.Checks).flatten) status) dc)
                   s.lastConfig).2.1)
            else none)) ∧
      (∀ service (s : AggState) i v, aggStep service s (.recv i v) =
        ({ s with lastConfig := s.lastConfig.set i v,
                  lastResult :=
                    (checkClusterChangedM (mergeResult service (s.lastConfig.set i v))
                      s.lastResult).2.1 },
          if (checkClusterChangedM (mergeResult service (s.lastConfig.set i v))
               s.lastResult).1 then
            some ((checkClusterChangedM (mergeResult service (s.lastConfig.set i v))
              s.lastResult).2.1)
          else none)) ∧
      (∀ nw last, nw.length = last.length →
        (∀ p ∈ nw.zip last, p.1.Endpoints.Perm p.2.Endpoints ∧
          (p.1.Endpoints.map Endpoint.ID).Nodup) →
        checkClusterChanged nw last = false) ∧
      (∀ nw last (c1 c2 : Cluster) (A B : List Endpoint) (e e1 : Endpoint),
        (c1, c2) ∈ nw.zip last → c1.Endpoints = A ++ e :: B → c2.Endpoints = A ++ e1 :: B →
        e ≠ e1 → checkClusterChanged nw last = true) := by
  refine ⟨checkClusterChanged_eq_false_iff,
    fun s svcs idx hne => watchCycle_changed status dc cat s svcs idx hne,
    fun service s i v => rfl, ?_, ?_⟩
  · intro nw last hl hp
    rw [checkClusterChanged_eq_false_iff]
    exact ⟨hl, fun p hp2 => sortEndpoints_eq_of_perm (hp p hp2).1 (hp p hp2).2⟩
  · intro nw last c1 c2 A B e e1 hmem hc1 hc2 hne
    cases hcc : checkClusterChanged nw last with
    | true => rfl
    | false =>
      exfalso
      obtain ⟨hl, hall⟩ := (checkClusterChanged_eq_false_iff nw last).mp hcc
      have hs := hall (c1, c2) hmem
      have hperm : c1.Endpoints.Perm c2.Endpoints :=
        (sortEndpoints_perm c1.Endpoints).symm.trans
          (by rw [hs]; exact sortEndpoints_perm c2.Endpoints)
      have hcount := hperm.count_eq e
      rw [hc1, hc2] at hcount
      simp [List.count_append, List.count_cons_self, List.count_cons_of_ne hne] at hcount

/-- C2 counterexample: two singleton cluster lists whose endpoints are
permutations of each other (two endpoints share the ID `"a"` but differ in
`Addr`) are reported as changed, so re-feeding an identical list with
endpoints reordered can produce a second emission. -/
theorem cluster_diff_perm_counterexample :
    ([⟨"a", "y", 0, []⟩, ⟨"a", "x", 0, []⟩] : List Endpoint).Perm
        [⟨"a", "x", 0, []⟩, ⟨"a", "y", 0, []⟩] ∧
      checkClusterChanged [⟨"s", [⟨"a", "y", 0, []⟩, ⟨"a", "x", 0, []⟩], []⟩]
        [⟨"s", [⟨"a", "x", 0, []⟩, ⟨"a", "y", 0, []⟩], []⟩] = true :=
  ⟨List.Perm.swap _ _ _, by decide⟩

theorem cluster_diff_suppression_witness :
    (∀ p ∈ ([⟨"s", [⟨"a", "x", 0, []⟩, ⟨"b", "y", 0, []⟩], []⟩] : List Cluster).zip
        ([⟨"s", [⟨"b", "y", 0, []⟩, ⟨"a", "x", 0, []⟩], []⟩] : List Cluster),
        p.1.Endpoints.Perm p.2.Endpoints ∧ (p.1.Endpoints.map Endpoint.ID).Nodup) ∧
      checkClusterChanged [⟨"s", [⟨"a", "x", 0, []⟩, ⟨"b", "y", 0, []⟩], []⟩]
        [⟨"s", [⟨"b", "y", 0, []⟩, ⟨"a", "x", 0, []⟩], []⟩] = false :=
  ⟨by decide,
    (cluster_diff_suppression [] "us" (fun _ _ => none)).2.2.2.1
      [⟨"s", [⟨"a", "x", 0, []⟩, ⟨"b", "y", 0, []⟩], []⟩]
      [⟨"s", [⟨"b", "y", 0, []⟩, ⟨"a", "x", 0, []⟩], []⟩] rfl (by decide)⟩

/-- C5 (amended): a failed catalog lookup yields a cluster with an empty
endpoint list and no environment tag, without affecting the other groups of
the batch (each group's cluster depends only on its own name's catalog
answer); once catalog resolution succeeded, the environment tag is appended
regardless of how many endpoints matched — in particular a successfully
resolved cluster with zero matching entries carries the tag and an empty
endpoint list. -/
theorem catalog_failure_isolation (cat cat2 : String → String → Option (List CatalogService))
    (name : String) (passing : List String) (dc : String) :
    (cat name dc = none → serviceConfig cat name passing dc = ⟨name, [], []⟩) ∧
      (∀ svcs, cat name dc = some svcs → name ≠ "" → passing ≠ [] →
        envTag ∈ (serviceConfig cat name passing dc).Tags ∧
        ((svcs.filter fun svc => passing.contains svc.ServiceID) = [] →
          (serviceConfig cat name passing dc).Endpoints = [])) ∧
      ((∀ m d, m ≠ name → cat2 m d = cat m d) →
        ∀ m p d, m ≠ name → serviceConfig cat2 m p d = serviceConfig cat m p d) ∧
      (∀ checks, servicesConfig cat checks dc =
        (groupNames checks).map fun m => serviceConfig cat m (passingIDs checks m) dc) := by
  refine ⟨?_, ?_, ?_, fun checks => rfl⟩
  · intro h
    by_cases hc : name = "" ∨ passing = []
    · simp [serviceConfig, hc]
    · simp [serviceConfig, hc, h]
  · intro svcs hcat hname hpass
    have hc : ¬(name = "" ∨ passing = []) := by
      intro h
      rcases h with h | h
      · exact hname h
      · exact hpass h
    constructor
    · simp [serviceConfig, hc, hcat, Cluster.AddEnvTag]
    · intro hfil
      simp [serviceConfig, hc, hcat, Cluster.AddEnvTag]
      simpa using hfil
  · intro hagree m p d hm
    simp only [serviceConfig, hagree m d hm]

/-- C5 counterexample: when the catalog lookup fails, the returned cluster
carries no environment tag (`defer cluster.AddEnvTag()` is registered only
after the error check), although catalog resolution was attempted. -/
theorem catalog_failure_no_env_tag :
    (serviceConfig (fun _ _ => none) "svc" ["i1"] "dc1").Tags = [] ∧
      envTag ∉ (serviceConfig (fun _ _ => none) "svc" ["i1"] "dc1").Tags ∧
      (serviceConfig (fun _ _ => none) "svc" ["i1"] "dc1").Endpoints = [] := by
  decide

theorem catalog_failure_isolation_witness :
    envTag ∈ (serviceConfig (fun _ _ => some []) "svc" ["i1"] "dc1").Tags ∧
      (serviceConfig (fun _ _ => some []) "svc" ["i1"] "dc1").Endpoints = [] := by
  have h := (catalog_failure_isolation (fun _ _ => some []) (fun _ _ => some [])
    "svc" ["i1"] "dc1").2.1 [] rfl (by decide) (by decide)
  exact ⟨h.1, h.2 rfl⟩

/-- C6: for every catalog instance whose `ServiceID` is in the passing set
(and only those), the built endpoint has `ID` the `ServiceID`, `Port` the
service port, `Tags` the instance's own tags plus one synthesized
`dc=<domain>` tag sorted lexicographically, and `Addr` the service-level
address, falling back to the node-level one exactly when the service-level
one is empty. -/
theorem endpoint_construction (cat : String → String → Option (List CatalogService))
    (name : String) (passing : List String) (dc : String) (svcs : List CatalogService)
    (hcat : cat name dc = some svcs) (hname : name ≠ "") (hpass : passing ≠ [])
    (hdc : ∀ svc ∈ svcs, svc.Datacenter = dc) :
    (serviceConfig cat name passing dc).Endpoints =
      (svcs.filter fun svc => passing.contains svc.ServiceID).map fun svc =>
        { ID := svc.ServiceID
          Addr := if svc.ServiceAddress = "" then svc.Address else svc.ServiceAddress
          Port := svc.ServicePort
          Tags := sortStrings (svc.ServiceTags ++ ["dc=" ++ dc]) } := by
  have hc : ¬(name = "" ∨ passing = []) := by
    intro h
    rcases h with h | h
    · exact hname h
    · exact hpass h
  simp only [serviceConfig, hc, hcat, Cluster.AddEnvTag, if_neg hc]
  apply List.map_congr_left
  intro svc hsvc
  have hmem : svc ∈ svcs := (List.mem_filter.mp hsvc).1
  simp [mkEndpoint, hdc svc hmem]

theorem endpoint_construction_witness :
    ((fun _ _ => some [(⟨"i1", "10.0.0.1", "n1", 8080, ["t"], "us"⟩ : CatalogService),
        ⟨"i2", "", "n2", 9, [], "us"⟩, ⟨"x9", "a", "n", 1, [], "us"⟩]) "orders" "us" =
      some [⟨"i1", "10.0.0.1", "n1", 8080, ["t"], "us"⟩, ⟨"i2", "", "n2", 9, [], "us"⟩,
        ⟨"x9", "a", "n", 1, [], "us"⟩]) ∧
      (serviceConfig
          (fun _ _ => some [⟨"i1", "10.0.0.1", "n1", 8080, ["t"], "us"⟩,
            ⟨"i2", "", "n2", 9, [], "us"⟩, ⟨"x9", "a", "n", 1, [], "us"⟩])
          "orders" ["i1", "i2"] "us").Endpoints =
        (([⟨"i1", "10.0.0.1", "n1", 8080, ["t"], "us"⟩, ⟨"i2", "", "n2", 9, [], "us"⟩,
            ⟨"x9", "a", "n", 1, [], "us"⟩] : List CatalogService).filter
          fun svc => (["i1", "i2"] : List String).contains svc.ServiceID).map fun svc =>
          { ID := svc.ServiceID
            Addr := if svc.ServiceAddress = "" then svc.Address else svc.ServiceAddress
            Port := svc.ServicePort
            Tags := sortStrings (svc.ServiceTags ++ ["dc=" ++ "us"]) } :=
  ⟨rfl,
    endpoint_construction _ "orders" ["i1", "i2"] "us" _ rfl (by decide) (by decide) (by decide)⟩

/-- C7: a closed domain channel is removed from the wait set and nothing
else changes; the removal is permanent across any later events; and a
subsequently received value from another domain is processed exactly as it
would have been without the close — the aggregator keeps emitting on
changes from the remaining domains. -/
theorem closed_domain_resilience (service : String) (s : AggState) (j : Nat) :
    aggStep service s (.closed j) = ({ s with active := s.active.set j false }, none) ∧
      (∀ i v, aggStep service { s with active := s.active.set j false } (.recv i v) =
        ({ (aggStep service s (.recv i v)).1 with active := s.active.set j false },
          (aggStep service s (.recv i v)).2)) ∧
      ∀ evs (s2 : AggState), s2.active[j]? = some false →
        ((aggRun service s2 evs).1).active[j]? = some false := by
  refine ⟨rfl, fun i v => rfl, ?_⟩
  intro evs
  induction evs with
  | nil => intro s2 h; exact h
  | cons e es ih =>
    intro s2 h
    cases e with
    | recv i v =>
      simp only [aggRun]
      exact ih _ (by simpa [aggStep] using h)
    | closed i =>
      simp only [aggRun]
      exact ih _ (by simpa [aggStep] using getElem?_set_false s2.active i j h)

theorem closed_domain_resilience_witness :
    (([false, true] : List Bool)[0]? = some false) ∧
      ((aggRun "svc" ⟨[false, true], [[], []], []⟩
          [.recv 1 [⟨"c1", [⟨"a", "", 0, []⟩], []⟩], .closed 1]).1).active[0]? = some false :=
  ⟨rfl,
    (closed_domain_resilience "svc" ⟨[false, true], [[], []], []⟩ 0).2.2
      [.recv 1 [⟨"c1", [⟨"a", "", 0, []⟩], []⟩], .closed 1]
      ⟨[false, true], [[], []], []⟩ rfl⟩

/-- C8: the cluster-level equality used for emission suppression is
positional, not permutation-invariant: two cluster lists that are
permutations of each other (same clusters, different order) are reported as
changed. -/
theorem positional_order_sensitivity :
    ([⟨"a", [⟨"1", "x", 1, []⟩], []⟩, ⟨"b", [⟨"2", "y", 2, []⟩], []⟩] : List Cluster).Perm
        [⟨"b", [⟨"2", "y", 2, []⟩], []⟩, ⟨"a", [⟨"1", "x", 1, []⟩], []⟩] ∧
      checkClusterChanged
        [⟨"a", [⟨"1", "x", 1, []⟩], []⟩, ⟨"b", [⟨"2", "y", 2, []⟩], []⟩]
        [⟨"b", [⟨"2", "y", 2, []⟩], []⟩, ⟨"a", [⟨"1", "x", 1, []⟩], []⟩] = true :=
  ⟨List.Perm.swap _ _ _, by decide⟩

/-- C9 (amended): the equality check sorts, in place, only the endpoint
lists of the positional pairs it actually compares — when the lengths
differ it returns `true` without mutating either list, and when the lengths
are equal and it reports no change, every cluster of both returned
(persisted) lists has its endpoints sorted by ID; what a cycle sends and
persists is the mutated new list, so an emitted list need not be sorted (in
particular the first emission, when the previous set has a different
length, is sent in as-built order). -/
theorem cluster_diff_sorts_compared_pairs :
    (∀ nw last, nw.length ≠ last.length → checkClusterChangedM nw last = (true, nw, last)) ∧
      (∀ nw last, nw.length = last.length → (checkClusterChangedM nw last).1 = false →
        (∀ c ∈ (checkClusterChangedM nw last).2.1, List.Sorted idLE c.Endpoints) ∧
        (∀ c ∈ (checkClusterChangedM nw last).2.2, List.Sorted idLE c.Endpoints)) ∧
      (∀ service (s : AggState) i v, (aggStep service s (.recv i v)).2 = none ∨
        (aggStep service s (.recv i v)).2 =
          some ((checkClusterChangedM (mergeResult service (s.lastConfig.set i v))
            s.lastResult).2.1)) ∧
      (∀ service (s : AggState) i v, (aggStep service s (.recv i v)).1.lastResult =
        (checkClusterChangedM (mergeResult service (s.lastConfig.set i v))
          s.lastResult).2.1) ∧
      (∀ status dc cat (s : WatchState) svcs idx,
        checkCheckersEqual s.oldCheckers
            (passingServices ((svcs.map ServiceEntry.Checks).flatten) status) = false →
        (watchCycle status dc cat s (some (svcs, idx))).1.lastConfig =
          (checkClusterChangedM
            (servicesConfig cat
              (passingServices ((svcs.map ServiceEntry.Checks).flatten) status) dc)
            s.lastConfig).2.1) := by
  refine ⟨checkClusterChangedM_of_length_ne, ?_, ?_, fun service s i v => rfl, ?_⟩
  · intro nw last hl hf
    have hM : checkClusterChangedM nw last = checkPairsM nw last := by
      simp [checkClusterChangedM, hl]
    rw [hM] at hf ⊢
    exact checkPairsM_sorted nw last hl hf
  · intro service s i v
    cases hr : (checkClusterChangedM (mergeResult service (s.lastConfig.set i v))
        s.lastResult).1 with
    | false => left; simp [aggStep, hr]
    | true => right; simp [aggStep, hr]
  · intro status dc cat s svcs idx hne
    rw [watchCycle_changed status dc cat s svcs idx hne]

/-- C9 counterexample: the aggregator's first emission (previous merged set
empty, so the length check short-circuits and nothing is sorted) is sent
with its endpoints in as-built order, here with ID `"b"` before ID `"a"`. -/
theorem aggregator_unsorted_emission :
    (aggStep "svc" ⟨[true], [[]], []⟩
        (.recv 0 [⟨"c1", [⟨"b", "", 0, []⟩, ⟨"a", "", 0, []⟩], []⟩])).2 =
      some [⟨"svc", [⟨"b", "", 0, []⟩, ⟨"a", "", 0, []⟩], []⟩] ∧
      ¬ idLE ⟨"b", "", 0, []⟩ ⟨"a", "", 0, []⟩ := by
  decide

theorem cluster_diff_sorts_compared_pairs_witness :
    (([⟨"s", [⟨"b", "y", 0, []⟩, ⟨"a", "x", 0, []⟩], []⟩] : List Cluster).length =
        ([⟨"s", [⟨"a", "x", 0, []⟩, ⟨"b", "y", 0, []⟩], []⟩] : List Cluster).length) ∧
      (checkClusterChangedM [⟨"s", [⟨"b", "y", 0, []⟩, ⟨"a", "x", 0, []⟩], []⟩]
        [⟨"s", [⟨"a", "x", 0, []⟩, ⟨"b", "y", 0, []⟩], []⟩]).1 = false ∧
      ∀ c ∈ (checkClusterChangedM [⟨"s", [⟨"b", "y", 0, []⟩, ⟨"a", "x", 0, []⟩], []⟩]
        [⟨"s", [⟨"a", "x", 0, []⟩, ⟨"b", "y", 0, []⟩], []⟩]).2.1,
        List.Sorted idLE c.Endpoints :=
  ⟨rfl, by decide,
    (cluster_diff_sorts_compared_pairs.2.1
      [⟨"s", [⟨"b", "y", 0, []⟩, ⟨"a", "x", 0, []⟩], []⟩]
      [⟨"s", [⟨"a", "x", 0, []⟩, ⟨"b", "y", 0, []⟩], []⟩] rfl (by decide)).1⟩
